import Mathlib

/-!
Shallow embedding of `src/rust/image-classification/src/backend/src/onnx.rs`.

The file models the three public operations of the backend — `setup`,
`detect` and `embedding` — together with the data they manipulate.
32-bit floats are modelled as `Val`: either NaN or a finite value
represented exactly as a rational (the source only moves float values
around, divides by the constant 255, subtracts/divides by fixed
constants, and compares with `partial_cmp`, all of which the model
mirrors; NaN is the one non-finite behaviour the source's comparator
can observe).  Panics of the Rust code (index out of bounds, `unwrap`
on `None`) are modelled by the `Outcome.panicked` constructor, and
`anyhow` errors by `Outcome.err`.  External collaborators — the image
decoder, the resampler of the `image` crate and the two tract graphs —
are modelled as explicit parameters or, for the resampler, by a
definition that fixes only what the repository's code relies on.
-/

namespace Onnx

/-- A 32-bit float value as the source observes it: NaN, or a finite
value modelled exactly as a rational. -/
inductive Val where
  | nan : Val
  | fin : ℚ → Val
deriving DecidableEq

/-- `f32::partial_cmp`: `None` whenever either side is NaN, otherwise
the numeric order. -/
def Val.pcmp : Val → Val → Option Ordering
  | .fin p, .fin q =>
      some (if p < q then .lt else if q < p then .gt else .eq)
  | _, _ => none

def Val.isNaN : Val → Bool
  | .nan => true
  | .fin _ => false

/-- `a <= b` as booleans on finite values; `false` if either is NaN. -/
def Val.leB : Val → Val → Bool
  | .fin p, .fin q => decide (p ≤ q)
  | _, _ => false

/-- `a < b` as booleans on finite values; `false` if either is NaN. -/
def Val.ltB : Val → Val → Bool
  | .fin p, .fin q => decide (p < q)
  | _, _ => false

/-- Errors surfaced through `anyhow::Error` by the source. -/
inductive PipelineError where
  | imageDecode (msg : String)
  | inference (msg : String)
  | noFaceDetected
deriving DecidableEq

/-- Result of running a piece of the Rust code: a value, a returned
error, or a panic with its message. -/
inductive Outcome (α : Type) where
  | ok (a : α)
  | err (e : PipelineError)
  | panicked (msg : String)
deriving DecidableEq

def Outcome.isPanicked : Outcome α → Bool
  | .panicked _ => true
  | _ => false

/-- `struct BoundingBox` of the source: four floats. -/
structure BoundingBox where
  left : Val
  top : Val
  right : Val
  bottom : Val
deriving DecidableEq

/-- `BoundingBox::new(raw)` reads `raw[0] .. raw[3]` and panics (index
out of bounds) when the slice is shorter than 4. -/
def BoundingBox.new (raw : List Val) : Outcome BoundingBox :=
  match raw with
  | l :: t :: r :: b :: _ => .ok ⟨l, t, r, b⟩
  | _ => .panicked "index out of bounds"

/-- `struct Embedding { v0: Vec<f32> }`. -/
structure Embedding where
  v0 : List Val
deriving DecidableEq

/-- A decoded RGB image: `pix x y c` is the raw byte sample of channel
`c` of the pixel at `(x, y)` (`image[(x, y)][c]` in the source). -/
structure RgbImage where
  width : Nat
  height : Nat
  pix : Nat → Nat → Nat → Nat

/-- `image::imageops::FilterType`. -/
inductive FilterType where
  | Nearest | Triangle | CatmullRom | Gaussian | Lanczos3

/-- Modelled from the spec: `image::imageops::resize` of the external
`image` crate (not part of this repository) resamples the source image
to exactly the requested `width × height` with the given filter.  Only
the output dimensions matter to the claims; the per-pixel content is
represented by a proportional sample of the source image, standing in
for the filter's weighted average. -/
def resize (img : RgbImage) (w h : Nat) (_filter : FilterType) : RgbImage :=
  { width := w
    height := h
    pix := fun x y c => img.pix (x * img.width / w) (y * img.height / h) c }

/-- A dense NCHW float tensor: shape plus entry function. -/
structure Tensor4 where
  dims : Nat × Nat × Nat × Nat
  entry : Nat → Nat → Nat → Nat → ℚ

/-- `const MEAN: [f32; 3]` of `detect`. -/
def MEAN : List ℚ := [0.485, 0.456, 0.406]

/-- `const STD: [f32; 3]` of `detect`. -/
def STD : List ℚ := [0.229, 0.224, 0.225]

/-- The `Array4::from_shape_fn((1, 3, 240, 320), ...)` tensor of
`detect`: entry `(_, c, y, x)` is
`(image[(x, y)][c] / 255 - MEAN[c]) / STD[c]`. -/
def detectTensorOf (img : RgbImage) : Tensor4 :=
  { dims := (1, 3, 240, 320)
    entry := fun _ c y x =>
      ((img.pix x y c : ℚ) / 255 - MEAN.getD c 0) / STD.getD c 1 }

/-- The tensor `detect` passes to the detector graph: the image is
first resized to 320×240 with the triangle filter. -/
def detectInput (img : RgbImage) : Tensor4 :=
  detectTensorOf (resize img 320 240 .Triangle)

/-- The `Array4::from_shape_fn((1, 3, 140, 140), ...)` tensor of
`embedding`: entry `(_, c, y, x)` is `image[(x, y)][c] / 255`. -/
def embedTensorOf (img : RgbImage) : Tensor4 :=
  { dims := (1, 3, 140, 140)
    entry := fun _ c y x => (img.pix x y c : ℚ) / 255 }

/-- The tensor `embedding` passes to the embedder graph: the image is
first resized to 140×140 with the triangle filter. -/
def embedInput (img : RgbImage) : Tensor4 :=
  embedTensorOf (resize img 140 140 .Triangle)

/-- The runnable detector graph (`ULTRAFACE`), abstracted to its
observable behaviour: on an input tensor it either fails (graph
execution or output-view failure, surfaced through `?`) or yields the
flat data of its two output tensors, `result[0]` (shape `(1, n, 2)`,
row-major) and `result[1]`. -/
structure DetectorGraph where
  run : Tensor4 → Except String (List Val × List Val)

/-- The runnable embedder graph (`FACEREC`): on an input tensor it
either fails or yields the flat data of `result[0]` in natural
iteration order. -/
structure EmbedGraph where
  run : Tensor4 → Except String (List Val)

/-- The thread-local registry: the two `RefCell<Option<Model>>` slots. -/
structure Registry where
  ultraface : Option DetectorGraph
  facerec : Option EmbedGraph

/-- The `.slice(s![0, .., 1])` view of `result[0]`: for a `(1, n, 2)`
row-major tensor this is every second element starting at flat
index 1. -/
def sliceConf : List Val → List Val
  | _ :: b :: rest => b :: sliceConf rest
  | _ => []

/-- `boxes.chunks(4)`: consecutive groups of 4, the last group possibly
shorter. -/
def chunks4 : List Val → List (List Val)
  | a :: b :: c :: d :: rest => [a, b, c, d] :: chunks4 rest
  | [] => []
  | l => [l]

/-- `.map(BoundingBox::new).collect()`: eager, so the panic of a short
chunk fires here. -/
def collectBoxes : List (List Val) → Outcome (List BoundingBox)
  | [] => .ok []
  | c :: rest =>
    match BoundingBox.new c, collectBoxes rest with
    | .ok b, .ok bs => .ok (b :: bs)
    | .panicked m, _ => .panicked m
    | .ok _, .panicked m => .panicked m
    | .err e, _ => .err e
    | .ok _, .err e => .err e

/-- The accumulating loop of `Iterator::max_by`: compare the current
maximum with the next element; `Ordering::Greater` keeps the current
one, anything else (including `Equal`) takes the next one, and a
failed `partial_cmp` panics through `unwrap`. -/
def maxByFold (cmp : α → α → Option Ordering) : α → List α → Outcome α
  | acc, [] => .ok acc
  | acc, x :: xs =>
    match cmp acc x with
    | none => .panicked "unwrap on None"
    | some .gt => maxByFold cmp acc xs
    | some _ => maxByFold cmp x xs

/-- `Iterator::max_by`: `none` on an empty iterator, otherwise the fold
above seeded with the first element. -/
def maxBy (cmp : α → α → Option Ordering) : List α → Outcome (Option α)
  | [] => .ok none
  | x :: xs =>
    match maxByFold cmp x xs with
    | .ok r => .ok (some r)
    | .err e => .err e
    | .panicked m => .panicked m

/-- The comparator of `detect`: `a.1.partial_cmp(b.1).unwrap()` on the
confidence component of each pair. -/
def pairCmp (a b : BoundingBox × Val) : Option Ordering :=
  Val.pcmp a.2 b.2

/-- Lines 97–117 of `detect`: slice the confidences out of
`result[0]`, chunk `result[1]` into bounding boxes, zip, and take the
`max_by` candidate, mapping the empty case to the
"No face detected" error. -/
def decodeSelect (out0 out1 : List Val) : Outcome (BoundingBox × Val) :=
  let confidences := sliceConf out0
  match collectBoxes (chunks4 out1) with
  | .panicked m => .panicked m
  | .err e => .err e
  | .ok boxes =>
    match maxBy pairCmp (boxes.zip confidences) with
    | .panicked m => .panicked m
    | .err e => .err e
    | .ok none => .err .noFaceDetected
    | .ok (some best) => .ok best

/-- `pub fn detect`: unwrap the detector slot (panicking when it was
never set up), decode the image bytes (the external decoder is an
explicit parameter), resize, normalize, run the graph, and decode its
output.  The unwrap happens before the decode, as in the source. -/
def detect (decodeImage : List Nat → Except String RgbImage)
    (st : Registry) (image : List Nat) : Outcome (BoundingBox × Val) :=
  match st.ultraface with
  | none => .panicked "unwrap on None"
  | some model =>
    match decodeImage image with
    | .error e => .err (.imageDecode e)
    | .ok img =>
      match model.run (detectInput img) with
      | .error e => .err (.inference e)
      | .ok (out0, out1) => decodeSelect out0 out1

/-- `pub fn embedding`: unwrap the embedder slot, decode, resize to
140×140, normalize by 255 only, run the graph and collect
`result[0]`. -/
def embedding (decodeImage : List Nat → Except String RgbImage)
    (st : Registry) (image : List Nat) : Outcome Embedding :=
  match st.facerec with
  | none => .panicked "unwrap on None"
  | some model =>
    match decodeImage image with
    | .error e => .err (.imageDecode e)
    | .ok img =>
      match model.run (embedInput img) with
      | .error e => .err (.inference e)
      | .ok v => .ok ⟨v⟩

/-- `fn setup_ultraface`: decoding/optimizing the embedded model bytes
is external, so its outcome is a parameter; on success the graph is
stored in the `ULTRAFACE` slot, on failure the state is untouched. -/
def setup_ultraface (res : Except String DetectorGraph) (st : Registry) :
    Except String Unit × Registry :=
  match res with
  | .error e => (.error e, st)
  | .ok g => (.ok (), { st with ultraface := some g })

/-- `fn setup_facerec`: likewise for the `FACEREC` slot. -/
def setup_facerec (res : Except String EmbedGraph) (st : Registry) :
    Except String Unit × Registry :=
  match res with
  | .error e => (.error e, st)
  | .ok g => (.ok (), { st with facerec := some g })

/-- `pub fn setup`: `setup_ultraface()?; setup_facerec()` — the
facerec load only runs when the ultraface load succeeded, and the
state reached by a successful first step persists even when the second
step fails. -/
def setup (ru : Except String DetectorGraph) (rf : Except String EmbedGraph)
    (st : Registry) : Except String Unit × Registry :=
  match setup_ultraface ru st with
  | (.error e, st1) => (.error e, st1)
  | (.ok _, st1) => setup_facerec rf st1

/-- Reference grouping of `result[1]` into bounding boxes when its
length is a multiple of 4: the value `chunks(4) + BoundingBox::new`
computes in the well-formed case. -/
def groupBoxes : List Val → List BoundingBox
  | a :: b :: c :: d :: rest => ⟨a, b, c, d⟩ :: groupBoxes rest
  | _ => []

/-- A concrete decoded raster image used to instantiate theorems. -/
def sampleImage : RgbImage :=
  { width := 320, height := 240, pix := fun _ _ _ => 128 }

/-- A concrete decoder standing in for `image::load_from_memory`. -/
def sampleDecode : List Nat → Except String RgbImage :=
  fun _ => .ok sampleImage

/-- A detector graph that returns zero candidates. -/
def emptyOutputDetector : DetectorGraph :=
  ⟨fun _ => .ok ([], [])⟩

/-- An embedder graph that returns a fixed short vector. -/
def constantEmbedder : EmbedGraph :=
  ⟨fun _ => .ok [.fin 1, .fin 0]⟩

/-- The registry before any `setup` call: both slots empty. -/
def emptyRegistry : Registry := { ultraface := none, facerec := none }

section Lemmas

lemma Val.pcmp_nan_left (b : Val) : Val.pcmp .nan b = none := by
  cases b <;> rfl

lemma Val.pcmp_nan_right (a : Val) : Val.pcmp a .nan = none := by
  cases a <;> rfl

lemma Val.fin_of_not_nan {v : Val} (h : v.isNaN = false) : ∃ p, v = .fin p := by
  cases v with
  | nan => simp [Val.isNaN] at h
  | fin p => exact ⟨p, rfl⟩

lemma Val.leB_trans {a b c : Val} (h1 : Val.leB a b = true)
    (h2 : Val.leB b c = true) : Val.leB a c = true := by
  cases a with
  | nan => simp [Val.leB] at h1
  | fin p =>
    cases b with
    | nan => simp [Val.leB] at h1
    | fin q =>
      cases c with
      | nan => simp [Val.leB] at h2
      | fin r =>
        simp [Val.leB] at h1 h2 ⊢
        exact le_trans h1 h2

lemma Val.leB_of_ltB {a b : Val} (h : Val.ltB a b = true) :
    Val.leB a b = true := by
  cases a with
  | nan => simp [Val.ltB] at h
  | fin p =>
    cases b with
    | nan => simp [Val.ltB] at h
    | fin q =>
      simp [Val.ltB] at h
      simp [Val.leB, le_of_lt h]

lemma Val.ltB_leB_trans {a b c : Val} (h1 : Val.ltB a b = true)
    (h2 : Val.leB b c = true) : Val.ltB a c = true := by
  cases a with
  | nan => simp [Val.ltB] at h1
  | fin p =>
    cases b with
    | nan => simp [Val.ltB] at h1
    | fin q =>
      cases c with
      | nan => simp [Val.leB] at h2
      | fin r =>
        simp [Val.ltB] at h1
        simp [Val.leB] at h2
        simp [Val.ltB, lt_of_lt_of_le h1 h2]

lemma maxByFold_cons_gt {acc x : BoundingBox × Val} {p q : ℚ}
    (hp : acc.2 = .fin p) (hq : x.2 = .fin q) (h : q < p)
    (xs : List (BoundingBox × Val)) :
    maxByFold pairCmp acc (x :: xs) = maxByFold pairCmp acc xs := by
  simp [maxByFold, pairCmp, hp, hq, Val.pcmp, h, lt_asymm h]

lemma maxByFold_cons_le {acc x : BoundingBox × Val} {p q : ℚ}
    (hp : acc.2 = .fin p) (hq : x.2 = .fin q) (h : ¬ q < p)
    (xs : List (BoundingBox × Val)) :
    maxByFold pairCmp acc (x :: xs) = maxByFold pairCmp x xs := by
  by_cases hpq : p < q <;> simp [maxByFold, pairCmp, hp, hq, Val.pcmp, h, hpq]

/-- The `max_by` fold on NaN-free pairs returns the last element
attaining the maximal confidence: the seed-and-list splits as
`l1 ++ r :: l2` where `r` is returned, every confidence is at most
`r`'s, and everything after `r` is strictly below it. -/
lemma maxByFold_last :
    ∀ (l : List (BoundingBox × Val)) (acc : BoundingBox × Val),
      acc.2.isNaN = false → (∀ p ∈ l, p.2.isNaN = false) →
      ∃ l1 l2 r, acc :: l = l1 ++ r :: l2 ∧
        maxByFold pairCmp acc l = .ok r ∧
        (∀ p ∈ acc :: l, Val.leB p.2 r.2 = true) ∧
        (∀ p ∈ l2, Val.ltB p.2 r.2 = true) := by
  intro l
  induction l with
  | nil =>
    intro acc hacc _
    obtain ⟨p, hp⟩ := Val.fin_of_not_nan hacc
    exact ⟨[], [], acc, rfl, rfl, by simp [hp, Val.leB], by simp⟩
  | cons x xs ih =>
    intro acc hacc hall
    have hx : x.2.isNaN = false := hall x (by simp)
    have hxs : ∀ p ∈ xs, p.2.isNaN = false := fun p hp => hall p (by simp [hp])
    obtain ⟨p, hp⟩ := Val.fin_of_not_nan hacc
    obtain ⟨q, hq⟩ := Val.fin_of_not_nan hx
    by_cases hqp : q < p
    · have hstep := maxByFold_cons_gt hp hq hqp xs
      obtain ⟨l1, l2, r, hdec, hfold, hle, hlt⟩ := ih acc hacc hxs
      have hxlt : Val.ltB x.2 acc.2 = true := by simp [Val.ltB, hp, hq, hqp]
      cases l1 with
      | nil =>
        simp only [List.nil_append] at hdec
        injection hdec with h1 h2
        refine ⟨[], x :: xs, acc, rfl, ?_, ?_, ?_⟩
        · rw [hstep, hfold, h1]
        · intro r2 hr2
          rcases List.mem_cons.mp hr2 with h | h
          · subst h; simp [Val.leB, hp]
          · rcases List.mem_cons.mp h with h3 | h3
            · subst h3; exact Val.leB_of_ltB hxlt
            · have := hle r2 (List.mem_cons.mpr (Or.inr h3))
              rwa [← h1] at this
        · intro r2 hr2
          rcases List.mem_cons.mp hr2 with h | h
          · subst h; exact hxlt
          · have := hlt r2 (h2 ▸ h)
            rwa [← h1] at this
      | cons a t =>
        simp only [List.cons_append] at hdec
        injection hdec with h1 h2
        have hne : acc :: x :: xs = (acc :: x :: t) ++ r :: l2 := by
          simp [h2]
        have haccle : Val.leB acc.2 r.2 = true := hle acc (by simp)
        refine ⟨acc :: x :: t, l2, r, hne, ?_, ?_, ?_⟩
        · rw [hstep, hfold]
        · intro r2 hr2
          rcases List.mem_cons.mp hr2 with h | h
          · subst h; exact haccle
          · rcases List.mem_cons.mp h with h3 | h3
            · subst h3
              exact Val.leB_of_ltB (Val.ltB_leB_trans hxlt haccle)
            · exact hle r2 (by simp [h3])
        · exact hlt
    · have hstep := maxByFold_cons_le hp hq hqp xs
      obtain ⟨l1, l2, r, hdec, hfold, hle, hlt⟩ := ih x hx hxs
      have haccx : Val.leB acc.2 x.2 = true := by
        simp [Val.leB, hp, hq, le_of_not_lt hqp]
      have hxle : Val.leB x.2 r.2 = true := hle x (by simp)
      refine ⟨acc :: l1, l2, r, by simp [hdec], ?_, ?_, ?_⟩
      · rw [hstep, hfold]
      · intro r2 hr2
        rcases List.mem_cons.mp hr2 with h | h
        · subst h; exact Val.leB_trans haccx hxle
        · exact hle r2 (by simp [h])
      · exact hlt

/-- The `max_by` fold panics as soon as a NaN confidence takes part in
a comparison: it does whenever the seed is NaN and the list is
nonempty, or some list element is NaN. -/
lemma maxByFold_nan :
    ∀ (l : List (BoundingBox × Val)) (acc : BoundingBox × Val),
      (acc.2.isNaN = true ∧ l ≠ []) ∨ (∃ p ∈ l, p.2.isNaN = true) →
      maxByFold pairCmp acc l = .panicked "unwrap on None" := by
  intro l
  induction l with
  | nil =>
    rintro acc (⟨_, hne⟩ | ⟨p, hp, _⟩)
    · exact absurd rfl hne
    · simp at hp
  | cons x xs ih =>
    intro acc h
    cases hacc : acc.2 with
    | nan => simp [maxByFold, pairCmp, hacc, Val.pcmp_nan_left]
    | fin p =>
      cases hx : x.2 with
      | nan => simp [maxByFold, pairCmp, hacc, hx, Val.pcmp_nan_right]
      | fin q =>
        have hmem : ∃ r ∈ xs, r.2.isNaN = true := by
          rcases h with ⟨h1, _⟩ | ⟨r, hr, hnan⟩
          · rw [hacc] at h1; simp [Val.isNaN] at h1
          · rcases List.mem_cons.mp hr with h2 | h2
            · subst h2; rw [hx] at hnan; simp [Val.isNaN] at hnan
            · exact ⟨r, h2, hnan⟩
        by_cases hqp : q < p
        · rw [maxByFold_cons_gt hacc hx hqp]
          exact ih acc (Or.inr hmem)
        · rw [maxByFold_cons_le hacc hx hqp]
          exact ih x (Or.inr hmem)

/-- `max_by` on a nonempty NaN-free list: last maximal element wins. -/
lemma maxBy_last (l : List (BoundingBox × Val)) (hne : l ≠ [])
    (hfin : ∀ p ∈ l, p.2.isNaN = false) :
    ∃ l1 l2 r, l = l1 ++ r :: l2 ∧ maxBy pairCmp l = .ok (some r) ∧
      (∀ p ∈ l, Val.leB p.2 r.2 = true) ∧
      (∀ p ∈ l2, Val.ltB p.2 r.2 = true) := by
  cases l with
  | nil => exact absurd rfl hne
  | cons x xs =>
    obtain ⟨l1, l2, r, hdec, hfold, hle, hlt⟩ :=
      maxByFold_last xs x (hfin x (by simp)) (fun p hp => hfin p (by simp [hp]))
    exact ⟨l1, l2, r, hdec, by simp [maxBy, hfold], hle, hlt⟩

/-- When `result[1]`'s length is a multiple of 4, the chunk-and-build
step succeeds and computes `groupBoxes`. -/
lemma collectBoxes_full :
    ∀ l : List Val, l.length % 4 = 0 →
      collectBoxes (chunks4 l) = .ok (groupBoxes l)
  | [], _ => rfl
  | [a], h => by simp at h
  | [a, b], h => by simp at h
  | [a, b, c], h => by simp at h
  | a :: b :: c :: d :: rest, h => by
    have h4 : rest.length % 4 = 0 := by
      simp only [List.length_cons] at h; omega
    simp [chunks4, collectBoxes, BoundingBox.new, groupBoxes,
      collectBoxes_full rest h4]

/-- When `result[1]` is nonempty and its length is not a multiple of 4,
the chunk-and-build step panics on the short final chunk. -/
lemma collectBoxes_short :
    ∀ l : List Val, l ≠ [] → l.length % 4 ≠ 0 →
      collectBoxes (chunks4 l) = .panicked "index out of bounds"
  | [], hne, _ => absurd rfl hne
  | [a], _, _ => rfl
  | [a, b], _, _ => rfl
  | [a, b, c], _, _ => rfl
  | a :: b :: c :: d :: rest, _, h => by
    have h4 : rest.length % 4 ≠ 0 := by
      simp only [List.length_cons] at h ⊢; omega
    have hne : rest ≠ [] := by
      intro hE; rw [hE] at h; simp at h
    simp [chunks4, collectBoxes, BoundingBox.new,
      collectBoxes_short rest hne h4]

lemma groupBoxes_length : ∀ l : List Val, (groupBoxes l).length = l.length / 4
  | [] => rfl
  | [_] => by simp [groupBoxes]
  | [_, _] => by simp [groupBoxes]
  | [_, _, _] => by simp [groupBoxes]
  | a :: b :: c :: d :: rest => by
    simp only [groupBoxes, List.length_cons, groupBoxes_length rest]
    omega

/-- In the well-formed case `decodeSelect` reduces to `max_by` over the
zipped boxes and confidences. -/
lemma decodeSelect_wf (out0 out1 : List Val) (h4 : out1.length % 4 = 0) :
    decodeSelect out0 out1 =
      match maxBy pairCmp ((groupBoxes out1).zip (sliceConf out0)) with
      | .panicked m => .panicked m
      | .err e => .err e
      | .ok none => .err .noFaceDetected
      | .ok (some best) => .ok best := by
  simp [decodeSelect, collectBoxes_full out1 h4]

/-- Well-formed detector output: `decodeSelect` returns the last pair
attaining the maximal confidence. -/
lemma decodeSelect_last_max (out0 out1 : List Val) (n : Nat) (hn : 0 < n)
    (hconf : (sliceConf out0).length = n) (hbox : out1.length = 4 * n)
    (hfin : ∀ v ∈ sliceConf out0, v.isNaN = false) :
    ∃ l1 l2 r, (groupBoxes out1).zip (sliceConf out0) = l1 ++ r :: l2 ∧
      decodeSelect out0 out1 = .ok r ∧
      (∀ p ∈ (groupBoxes out1).zip (sliceConf out0), Val.leB p.2 r.2 = true) ∧
      (∀ p ∈ l2, Val.ltB p.2 r.2 = true) := by
  have h4 : out1.length % 4 = 0 := by simp [hbox, Nat.mul_mod_right]
  have hglen : (groupBoxes out1).length = n := by
    rw [groupBoxes_length, hbox]; omega
  have hplen : ((groupBoxes out1).zip (sliceConf out0)).length = n := by
    simp [List.length_zip, hglen, hconf]
  have hne : (groupBoxes out1).zip (sliceConf out0) ≠ [] := by
    intro hE; rw [hE] at hplen; simp at hplen; omega
  have hfinp : ∀ p ∈ (groupBoxes out1).zip (sliceConf out0),
      p.2.isNaN = false := fun p hp => hfin p.2 (List.of_mem_zip hp).2
  obtain ⟨l1, l2, r, hdec, hmax, hle, hlt⟩ :=
    maxBy_last _ hne hfinp
  exact ⟨l1, l2, r, hdec, by rw [decodeSelect_wf out0 out1 h4, hmax], hle, hlt⟩

end Lemmas

/-- A mock detector graph whose outputs have confidences
0.2, 0.9, 0.5 at flat positions (0, i, 1) and three 4-float box
groups 0..3, 4..7, 8..11. -/
def mockThreeDetector : DetectorGraph :=
  ⟨fun _ => .ok
    ([.fin 0, .fin (2/10), .fin 0, .fin (9/10), .fin 0, .fin (5/10)],
     [.fin 0, .fin 1, .fin 2, .fin 3, .fin 4, .fin 5, .fin 6, .fin 7,
      .fin 8, .fin 9, .fin 10, .fin 11])⟩

/-- A detector graph whose execution fails. -/
def failingDetector : DetectorGraph :=
  ⟨fun _ => .error "graph failure"⟩

/-- C1: the tensor `detect` passes to the detector graph has NCHW
shape (1, 3, 240, 320), and its entry at (0, c, y, x) is
`(raw_sample / 255 - MEAN[c]) / STD[c]` applied to channel `c` of the
resized image's pixel at (x, y), with MEAN = [0.485, 0.456, 0.406] and
STD = [0.229, 0.224, 0.225]. -/
theorem detect_tensor_nchw (img : RgbImage) (c y x : Nat)
    (_hc : c < 3) (_hy : y < 240) (_hx : x < 320) :
    (detectInput img).dims = (1, 3, 240, 320) ∧
    (detectInput img).entry 0 c y x =
      (((resize img 320 240 .Triangle).pix x y c : ℚ) / 255 -
          [(0.485 : ℚ), 0.456, 0.406].getD c 0) /
        [(0.229 : ℚ), 0.224, 0.225].getD c 1 ∧
    MEAN = [0.485, 0.456, 0.406] ∧ STD = [0.229, 0.224, 0.225] :=
  ⟨rfl, rfl, rfl, rfl⟩

theorem detect_tensor_nchw_witness :
    ((0 : Nat) < 3 ∧ (0 : Nat) < 240 ∧ (0 : Nat) < 320) ∧
    ((detectInput sampleImage).dims = (1, 3, 240, 320) ∧
      (detectInput sampleImage).entry 0 0 0 0 =
        (((resize sampleImage 320 240 .Triangle).pix 0 0 0 : ℚ) / 255 -
            [(0.485 : ℚ), 0.456, 0.406].getD 0 0) /
          [(0.229 : ℚ), 0.224, 0.225].getD 0 1 ∧
      MEAN = [0.485, 0.456, 0.406] ∧ STD = [0.229, 0.224, 0.225]) :=
  ⟨⟨by decide, by decide, by decide⟩,
    detect_tensor_nchw sampleImage 0 0 0 (by decide) (by decide) (by decide)⟩

/-- C2: on well-formed NaN-free detector output — `n` confidences at
flat positions (0, i, 1) of `result[0]` and `n` 4-float box groups in
`result[1]` — `detect` returns a box/confidence pair of maximal
confidence; in particular, for confidences [0.2, 0.9, 0.5] and three
box groups, the decode-and-select step returns the box at index 1
(floats 4..7) with confidence 0.9. -/
theorem detect_selects_max_confidence :
    (∀ (g : DetectorGraph) (st : Registry)
        (decodeImage : List Nat → Except String RgbImage)
        (bytes : List Nat) (img : RgbImage) (out0 out1 : List Val) (n : Nat),
      st.ultraface = some g → decodeImage bytes = .ok img →
      g.run (detectInput img) = .ok (out0, out1) →
      0 < n → (sliceConf out0).length = n → out1.length = 4 * n →
      (∀ v ∈ sliceConf out0, v.isNaN = false) →
      ∃ b c, detect decodeImage st bytes = .ok (b, c) ∧
        (b, c) ∈ (groupBoxes out1).zip (sliceConf out0) ∧
        ∀ p ∈ (groupBoxes out1).zip (sliceConf out0), Val.leB p.2 c = true) ∧
    decodeSelect [.fin 0, .fin (2/10), .fin 0, .fin (9/10), .fin 0, .fin (5/10)]
        [.fin 0, .fin 1, .fin 2, .fin 3, .fin 4, .fin 5, .fin 6, .fin 7,
          .fin 8, .fin 9, .fin 10, .fin 11] =
      .ok (⟨.fin 4, .fin 5, .fin 6, .fin 7⟩, .fin (9/10)) := by
  constructor
  · intro g st d bytes img out0 out1 n hst hdec hrun hn hconf hbox hfin
    have hdet : detect d st bytes = decodeSelect out0 out1 := by
      simp [detect, hst, hdec, hrun]
    obtain ⟨l1, l2, r, hsplit, hok, hle, _⟩ :=
      decodeSelect_last_max out0 out1 n hn hconf hbox hfin
    refine ⟨r.1, r.2, ?_, ?_, ?_⟩
    · rw [hdet, hok]
    · rw [hsplit]
      exact List.mem_append.mpr (Or.inr (by simp))
    · exact hle
  · norm_num [decodeSelect, sliceConf, chunks4, collectBoxes, BoundingBox.new,
      maxBy, maxByFold, pairCmp, Val.pcmp]

theorem detect_selects_max_confidence_witness :
    ((⟨some mockThreeDetector, none⟩ : Registry).ultraface = some mockThreeDetector ∧
      sampleDecode [] = .ok sampleImage ∧
      mockThreeDetector.run (detectInput sampleImage) = .ok
        ([.fin 0, .fin (2/10), .fin 0, .fin (9/10), .fin 0, .fin (5/10)],
         [.fin 0, .fin 1, .fin 2, .fin 3, .fin 4, .fin 5, .fin 6, .fin 7,
          .fin 8, .fin 9, .fin 10, .fin 11]) ∧
      0 < 3) ∧
    (∃ b c, detect sampleDecode ⟨some mockThreeDetector, none⟩ [] = .ok (b, c) ∧
      (b, c) ∈ (groupBoxes
          [.fin 0, .fin 1, .fin 2, .fin 3, .fin 4, .fin 5, .fin 6, .fin 7,
           .fin 8, .fin 9, .fin 10, .fin 11]).zip
        (sliceConf [.fin 0, .fin (2/10), .fin 0, .fin (9/10), .fin 0, .fin (5/10)]) ∧
      ∀ p ∈ (groupBoxes
          [.fin 0, .fin 1, .fin 2, .fin 3, .fin 4, .fin 5, .fin 6, .fin 7,
           .fin 8, .fin 9, .fin 10, .fin 11]).zip
        (sliceConf [.fin 0, .fin (2/10), .fin 0, .fin (9/10), .fin 0, .fin (5/10)]),
        Val.leB p.2 c = true) :=
  ⟨⟨rfl, rfl, rfl, by decide⟩,
    detect_selects_max_confidence.1 mockThreeDetector
      ⟨some mockThreeDetector, none⟩ sampleDecode [] sampleImage _ _ 3
      rfl rfl rfl (by decide) rfl rfl (by simp [sliceConf, Val.isNaN])⟩

/-- C3 counterexample: with an empty registry (no `initialize`),
`detect` and `embedding` panic on `Option::unwrap` instead of
returning a NotInitialized error. -/
theorem notinit_counterexample :
    detect (fun _ => .error "decoder untouched") emptyRegistry [] =
      .panicked "unwrap on None" ∧
    embedding (fun _ => .error "decoder untouched") emptyRegistry [] =
      .panicked "unwrap on None" :=
  ⟨rfl, rfl⟩

/-- C3 amended: for every call made before a successful `initialize()`
installed the corresponding graph, `detect`/`embedding` panic
(unwrapping the empty registry slot) rather than returning a typed
NotInitialized error. -/
theorem notinit_panics (decodeImage : List Nat → Except String RgbImage)
    (st : Registry) (bytes : List Nat) :
    (st.ultraface = none →
      detect decodeImage st bytes = .panicked "unwrap on None") ∧
    (st.facerec = none →
      embedding decodeImage st bytes = .panicked "unwrap on None") := by
  constructor
  · intro h; simp [detect, h]
  · intro h; simp [embedding, h]

theorem notinit_panics_witness :
    (emptyRegistry.ultraface = none ∧
      detect sampleDecode emptyRegistry [] = .panicked "unwrap on None") ∧
    (emptyRegistry.facerec = none ∧
      embedding sampleDecode emptyRegistry [] = .panicked "unwrap on None") :=
  ⟨⟨rfl, (notinit_panics sampleDecode emptyRegistry []).1 rfl⟩,
    ⟨rfl, (notinit_panics sampleDecode emptyRegistry []).2 rfl⟩⟩

/-- C4: on a detector output with zero candidates (both output arrays
empty) `detect` returns the NoFaceDetected error — it neither panics
nor returns a default box (the result is an `err`, not an `ok`). -/
theorem detect_empty_no_face (g : DetectorGraph) (st : Registry)
    (decodeImage : List Nat → Except String RgbImage) (bytes : List Nat)
    (img : RgbImage) (hst : st.ultraface = some g)
    (hdec : decodeImage bytes = .ok img)
    (hrun : g.run (detectInput img) = .ok ([], [])) :
    detect decodeImage st bytes = .err .noFaceDetected ∧
    (detect decodeImage st bytes).isPanicked = false := by
  have h : detect decodeImage st bytes = decodeSelect [] [] := by
    simp [detect, hst, hdec, hrun]
  rw [h]
  exact ⟨rfl, rfl⟩

theorem detect_empty_no_face_witness :
    ((⟨some emptyOutputDetector, none⟩ : Registry).ultraface =
        some emptyOutputDetector ∧
      sampleDecode [] = .ok sampleImage ∧
      emptyOutputDetector.run (detectInput sampleImage) = .ok ([], [])) ∧
    (detect sampleDecode ⟨some emptyOutputDetector, none⟩ [] =
        .err .noFaceDetected ∧
      (detect sampleDecode ⟨some emptyOutputDetector, none⟩ []).isPanicked =
        false) :=
  ⟨⟨rfl, rfl, rfl⟩,
    detect_empty_no_face emptyOutputDetector ⟨some emptyOutputDetector, none⟩
      sampleDecode [] sampleImage rfl rfl rfl⟩

/-- C5 counterexample: when `result[1]`'s length is 3 (not a multiple
of 4) the decode step panics (index out of bounds) instead of failing
with an InferenceError; and when two box groups meet a single
confidence the lists are silently truncated and a result is produced
from the mismatched data. -/
theorem inference_error_counterexample :
    decodeSelect [.fin 0, .fin (1/2)] [.fin 1, .fin 2, .fin 3] =
      .panicked "index out of bounds" ∧
    decodeSelect [.fin 0, .fin (1/2)]
        [.fin 1, .fin 2, .fin 3, .fin 4, .fin 5, .fin 6, .fin 7, .fin 8] =
      .ok (⟨.fin 1, .fin 2, .fin 3, .fin 4⟩, .fin (1/2)) := by
  constructor <;>
    norm_num [decodeSelect, sliceConf, chunks4, collectBoxes, BoundingBox.new,
      maxBy, maxByFold, pairCmp, Val.pcmp]

/-- C5 amended: on output shapes inconsistent with the contract,
`detect` does not fail with InferenceError: a `result[1]` whose length
is not a multiple of 4 makes the decode step panic on the short final
chunk, and a box-group count differing from the confidence count is
silently truncated to the shorter list (shown for two groups against
one confidence, which yields the first pair), with no error; only a
failure of the graph execution itself surfaces as InferenceError. -/
theorem shape_mismatch_behavior :
    (∀ out0 out1 : List Val, out1 ≠ [] → out1.length % 4 ≠ 0 →
      decodeSelect out0 out1 = .panicked "index out of bounds") ∧
    (∀ (out0 : List Val) (v1 v2 v3 v4 v5 v6 v7 v8 c : Val),
      sliceConf out0 = [c] →
      decodeSelect out0 [v1, v2, v3, v4, v5, v6, v7, v8] =
        .ok (⟨v1, v2, v3, v4⟩, c)) ∧
    (∀ (g : DetectorGraph) (st : Registry)
        (decodeImage : List Nat → Except String RgbImage)
        (bytes : List Nat) (img : RgbImage) (e : String),
      st.ultraface = some g → decodeImage bytes = .ok img →
      g.run (detectInput img) = .error e →
      detect decodeImage st bytes = .err (.inference e)) := by
  refine ⟨?_, ?_, ?_⟩
  · intro out0 out1 hne h4
    simp [decodeSelect, collectBoxes_short out1 hne h4]
  · intro out0 v1 v2 v3 v4 v5 v6 v7 v8 c hc
    simp [decodeSelect, hc, chunks4, collectBoxes, BoundingBox.new,
      maxBy, maxByFold]
  · intro g st d bytes img e hst hdec hrun
    simp [detect, hst, hdec, hrun]

theorem shape_mismatch_behavior_witness :
    (([Val.fin 1, Val.fin 2, Val.fin 3] : List Val) ≠ [] ∧
      ([Val.fin 1, Val.fin 2, Val.fin 3] : List Val).length % 4 ≠ 0 ∧
      sliceConf [Val.fin 0, Val.fin 7] = [Val.fin 7] ∧
      (⟨some failingDetector, none⟩ : Registry).ultraface = some failingDetector ∧
      sampleDecode [] = .ok sampleImage ∧
      failingDetector.run (detectInput sampleImage) = .error "graph failure") ∧
    decodeSelect [] [Val.fin 1, Val.fin 2, Val.fin 3] =
      .panicked "index out of bounds" ∧
    decodeSelect [Val.fin 0, Val.fin 7]
        [Val.fin 1, Val.fin 2, Val.fin 3, Val.fin 4,
         Val.fin 5, Val.fin 6, Val.fin 7, Val.fin 8] =
      .ok (⟨Val.fin 1, Val.fin 2, Val.fin 3, Val.fin 4⟩, Val.fin 7) ∧
    detect sampleDecode ⟨some failingDetector, none⟩ [] =
      .err (.inference "graph failure") :=
  ⟨⟨by simp, by decide, rfl, rfl, rfl, rfl⟩,
    shape_mismatch_behavior.1 [] [Val.fin 1, Val.fin 2, Val.fin 3]
      (by simp) (by decide),
    shape_mismatch_behavior.2.1 [Val.fin 0, Val.fin 7]
      (Val.fin 1) (Val.fin 2) (Val.fin 3) (Val.fin 4)
      (Val.fin 5) (Val.fin 6) (Val.fin 7) (Val.fin 8) (Val.fin 7) rfl,
    shape_mismatch_behavior.2.2 failingDetector ⟨some failingDetector, none⟩
      sampleDecode [] sampleImage "graph failure" rfl rfl rfl⟩

/-- A mock detector graph returning two candidates with equal
confidence 0.5 and two distinct box groups. -/
def tieDetector : DetectorGraph :=
  ⟨fun _ => .ok
    ([.fin 0, .fin (1/2), .fin 0, .fin (1/2)],
     [.fin 1, .fin 2, .fin 3, .fin 4, .fin 5, .fin 6, .fin 7, .fin 8])⟩

/-- C6 counterexample: with two candidates sharing the maximal
confidence 0.5, the selection returns the box at index 1 (the later
one), not the candidate at the first-encountered (lowest) index. -/
theorem tie_break_counterexample :
    decodeSelect [.fin 0, .fin (1/2), .fin 0, .fin (1/2)]
        [.fin 1, .fin 2, .fin 3, .fin 4, .fin 5, .fin 6, .fin 7, .fin 8] =
      .ok (⟨.fin 5, .fin 6, .fin 7, .fin 8⟩, .fin (1/2)) ∧
    (⟨Val.fin 5, Val.fin 6, Val.fin 7, Val.fin 8⟩ : BoundingBox) ≠
      ⟨Val.fin 1, Val.fin 2, Val.fin 3, Val.fin 4⟩ := by
  constructor
  · norm_num [decodeSelect, sliceConf, chunks4, collectBoxes, BoundingBox.new,
      maxBy, maxByFold, pairCmp, Val.pcmp]
  · intro h
    injection h with h1 _
    injection h1 with h2
    norm_num at h2

/-- C6 amended: when several candidates share the maximal confidence,
`detect` returns the candidate at the last-encountered (highest) index
among those with maximal confidence: the zipped candidate list splits
as `l1 ++ r :: l2` where `r` is returned, every confidence is at most
`r`'s, and every candidate after `r` is strictly below it. -/
theorem tie_break_last_index (g : DetectorGraph) (st : Registry)
    (decodeImage : List Nat → Except String RgbImage) (bytes : List Nat)
    (img : RgbImage) (out0 out1 : List Val) (n : Nat)
    (hst : st.ultraface = some g) (hdec : decodeImage bytes = .ok img)
    (hrun : g.run (detectInput img) = .ok (out0, out1))
    (hn : 0 < n) (hconf : (sliceConf out0).length = n)
    (hbox : out1.length = 4 * n)
    (hfin : ∀ v ∈ sliceConf out0, v.isNaN = false) :
    ∃ l1 l2 r, (groupBoxes out1).zip (sliceConf out0) = l1 ++ r :: l2 ∧
      detect decodeImage st bytes = .ok r ∧
      (∀ p ∈ (groupBoxes out1).zip (sliceConf out0), Val.leB p.2 r.2 = true) ∧
      (∀ p ∈ l2, Val.ltB p.2 r.2 = true) := by
  have hdet : detect decodeImage st bytes = decodeSelect out0 out1 := by
    simp [detect, hst, hdec, hrun]
  obtain ⟨l1, l2, r, hsplit, hok, hle, hlt⟩ :=
    decodeSelect_last_max out0 out1 n hn hconf hbox hfin
  exact ⟨l1, l2, r, hsplit, by rw [hdet]; exact hok, hle, hlt⟩

theorem tie_break_last_index_witness :
    ((⟨some tieDetector, none⟩ : Registry).ultraface = some tieDetector ∧
      sampleDecode [] = .ok sampleImage ∧
      tieDetector.run (detectInput sampleImage) = .ok
        ([.fin 0, .fin (1/2), .fin 0, .fin (1/2)],
         [.fin 1, .fin 2, .fin 3, .fin 4, .fin 5, .fin 6, .fin 7, .fin 8]) ∧
      0 < 2) ∧
    (∃ l1 l2 r,
      (groupBoxes [.fin 1, .fin 2, .fin 3, .fin 4,
          .fin 5, .fin 6, .fin 7, .fin 8]).zip
        (sliceConf [.fin 0, .fin (1/2), .fin 0, .fin (1/2)]) = l1 ++ r :: l2 ∧
      detect sampleDecode ⟨some tieDetector, none⟩ [] = .ok r ∧
      (∀ p ∈ (groupBoxes [.fin 1, .fin 2, .fin 3, .fin 4,
          .fin 5, .fin 6, .fin 7, .fin 8]).zip
        (sliceConf [.fin 0, .fin (1/2), .fin 0, .fin (1/2)]),
        Val.leB p.2 r.2 = true) ∧
      (∀ p ∈ l2, Val.ltB p.2 r.2 = true)) :=
  ⟨⟨rfl, rfl, rfl, by decide⟩,
    tie_break_last_index tieDetector ⟨some tieDetector, none⟩
      sampleDecode [] sampleImage _ _ 2 rfl rfl rfl (by decide) rfl rfl
      (by simp [sliceConf, Val.isNaN])⟩

/-- C7: in the embedding pipeline the image is resized to exactly
140×140 with the triangle filter, and the tensor passed to the
embedder graph has NCHW shape (1, 3, 140, 140) with entry (0, c, y, x)
equal to `raw_sample / 255` of the resized pixel at (x, y) — no
mean/std subtraction. -/
theorem embed_tensor_nchw (img : RgbImage) (c y x : Nat)
    (_hc : c < 3) (_hy : y < 140) (_hx : x < 140) :
    (resize img 140 140 .Triangle).width = 140 ∧
    (resize img 140 140 .Triangle).height = 140 ∧
    (embedInput img).dims = (1, 3, 140, 140) ∧
    (embedInput img).entry 0 c y x =
      ((resize img 140 140 .Triangle).pix x y c : ℚ) / 255 :=
  ⟨rfl, rfl, rfl, rfl⟩

theorem embed_tensor_nchw_witness :
    ((0 : Nat) < 3 ∧ (0 : Nat) < 140 ∧ (0 : Nat) < 140) ∧
    ((resize sampleImage 140 140 .Triangle).width = 140 ∧
      (resize sampleImage 140 140 .Triangle).height = 140 ∧
      (embedInput sampleImage).dims = (1, 3, 140, 140) ∧
      (embedInput sampleImage).entry 0 0 0 0 =
        ((resize sampleImage 140 140 .Triangle).pix 0 0 0 : ℚ) / 255) :=
  ⟨⟨by decide, by decide, by decide⟩,
    embed_tensor_nchw sampleImage 0 0 0 (by decide) (by decide) (by decide)⟩

/-- C8 counterexample: starting from the uninitialized registry, a
`setup` whose detector load succeeds and whose embedder load fails
returns the error but leaves the detector graph installed — the
registry is not unchanged and a partially loaded state is visible. -/
theorem setup_atomicity_counterexample :
    (setup (.ok emptyOutputDetector) (.error "bad model") emptyRegistry).1 =
      .error "bad model" ∧
    ((setup (.ok emptyOutputDetector) (.error "bad model")
        emptyRegistry).2.ultraface).isSome = true ∧
    (emptyRegistry.ultraface).isSome = false :=
  ⟨rfl, rfl, rfl⟩

/-- C8 amended: each slot is written only after its own load succeeds,
but overall initialization failure is not atomic: a failing detector
load leaves the registry unchanged, while a failing embedder load
after a successful detector load leaves the freshly loaded detector
graph installed (the embedder slot keeps its previous value). -/
theorem setup_failure_states (ru : Except String DetectorGraph)
    (rf : Except String EmbedGraph) (st : Registry) :
    (∀ e, ru = .error e → setup ru rf st = (.error e, st)) ∧
    (∀ g e, ru = .ok g → rf = .error e →
      setup ru rf st = (.error e, { st with ultraface := some g })) ∧
    (∀ g g2, ru = .ok g → rf = .ok g2 →
      setup ru rf st =
        (.ok (), { ultraface := some g, facerec := some g2 })) := by
  refine ⟨?_, ?_, ?_⟩ <;> intros <;> subst_vars <;>
    simp [setup, setup_ultraface, setup_facerec]

theorem setup_failure_states_witness :
    ((Except.error "bad model" : Except String DetectorGraph) =
        .error "bad model" ∧
      (Except.ok emptyOutputDetector : Except String DetectorGraph) =
        .ok emptyOutputDetector ∧
      (Except.error "bad embedder" : Except String EmbedGraph) =
        .error "bad embedder" ∧
      (Except.ok constantEmbedder : Except String EmbedGraph) =
        .ok constantEmbedder) ∧
    setup (.error "bad model") (.ok constantEmbedder) emptyRegistry =
      (.error "bad model", emptyRegistry) ∧
    setup (.ok emptyOutputDetector) (.error "bad embedder") emptyRegistry =
      (.error "bad embedder",
        { emptyRegistry with ultraface := some emptyOutputDetector }) ∧
    setup (.ok emptyOutputDetector) (.ok constantEmbedder) emptyRegistry =
      (.ok (), { ultraface := some emptyOutputDetector,
                 facerec := some constantEmbedder }) :=
  ⟨⟨rfl, rfl, rfl, rfl⟩,
    (setup_failure_states (Except.error "bad model") (Except.ok constantEmbedder)
      emptyRegistry).1 "bad model" rfl,
    (setup_failure_states (Except.ok emptyOutputDetector)
      (Except.error "bad embedder") emptyRegistry).2.1
      emptyOutputDetector "bad embedder" rfl rfl,
    (setup_failure_states (Except.ok emptyOutputDetector)
      (Except.ok constantEmbedder) emptyRegistry).2.2
      emptyOutputDetector constantEmbedder rfl rfl⟩

/-- C9: `embedding` is deterministic — it is a pure function of the
registry, the decoder and the input bytes, so two calls on
bit-identical byte sequences return identical embeddings; the model
has no source of randomness, mirroring the source, whose only inputs
are the bytes and the loaded graph. -/
theorem embedding_deterministic
    (decodeImage : List Nat → Except String RgbImage) (st : Registry)
    (b1 b2 : List Nat) (h : b1 = b2) :
    embedding decodeImage st b1 = embedding decodeImage st b2 := by
  rw [h]

theorem embedding_deterministic_witness :
    ([] : List Nat) = [] ∧
    embedding sampleDecode ⟨none, some constantEmbedder⟩ [] =
      embedding sampleDecode ⟨none, some constantEmbedder⟩ [] :=
  ⟨rfl, embedding_deterministic sampleDecode ⟨none, some constantEmbedder⟩
    [] [] rfl⟩

/-- A box with all-zero coordinates, used in NaN scenarios. -/
def zeroBox : BoundingBox := ⟨.fin 0, .fin 0, .fin 0, .fin 0⟩

/-- C10 counterexample: a single candidate whose confidence is NaN is
never compared, so the selection step does not panic — it returns that
candidate — refuting the claim that any NaN confidence makes the
selection panic. -/
theorem nan_counterexample :
    Val.nan.isNaN = true ∧
    maxBy pairCmp [(zeroBox, Val.nan)] = .ok (some (zeroBox, Val.nan)) ∧
    (maxBy pairCmp [(zeroBox, Val.nan)]).isPanicked = false :=
  ⟨rfl, rfl, rfl⟩

/-- C10 amended: with at least two candidates, any NaN confidence
makes the selection step panic (the comparator unwraps a failed
partial comparison); and on candidates whose confidences are all
non-NaN (pairwise comparable) the selection step cannot panic. -/
theorem nan_panic_behavior :
    (∀ l : List (BoundingBox × Val), 2 ≤ l.length →
      (∃ p ∈ l, p.2.isNaN = true) →
      maxBy pairCmp l = .panicked "unwrap on None") ∧
    (∀ l : List (BoundingBox × Val), (∀ p ∈ l, p.2.isNaN = false) →
      (maxBy pairCmp l).isPanicked = false) := by
  constructor
  · intro l hlen hnan
    cases l with
    | nil => simp at hlen
    | cons x xs =>
      have hxs : xs ≠ [] := by
        intro hE; rw [hE] at hlen; simp at hlen
      have hfold : maxByFold pairCmp x xs = .panicked "unwrap on None" := by
        rcases hnan with ⟨p, hp, hpn⟩
        rcases List.mem_cons.mp hp with h | h
        · subst h; exact maxByFold_nan xs p (Or.inl ⟨hpn, hxs⟩)
        · exact maxByFold_nan xs x (Or.inr ⟨p, h, hpn⟩)
      simp [maxBy, hfold]
  · intro l hfin
    cases l with
    | nil => rfl
    | cons x xs =>
      obtain ⟨_, _, r, _, hfold, _, _⟩ :=
        maxByFold_last xs x (hfin x (by simp)) (fun p hp => hfin p (by simp [hp]))
      simp [maxBy, hfold, Outcome.isPanicked]

theorem nan_panic_behavior_witness :
    (2 ≤ ([(zeroBox, Val.nan), (zeroBox, Val.fin 1)] :
        List (BoundingBox × Val)).length ∧
      (∃ p ∈ ([(zeroBox, Val.nan), (zeroBox, Val.fin 1)] :
          List (BoundingBox × Val)), p.2.isNaN = true) ∧
      (∀ p ∈ ([(zeroBox, Val.fin 1)] : List (BoundingBox × Val)),
        p.2.isNaN = false)) ∧
    maxBy pairCmp [(zeroBox, Val.nan), (zeroBox, Val.fin 1)] =
      .panicked "unwrap on None" ∧
    (maxBy pairCmp [(zeroBox, Val.fin 1)]).isPanicked = false :=
  ⟨⟨by decide, ⟨(zeroBox, Val.nan), by simp, rfl⟩, by simp [Val.isNaN]⟩,
    nan_panic_behavior.1 [(zeroBox, Val.nan), (zeroBox, Val.fin 1)]
      (by decide) ⟨(zeroBox, Val.nan), by simp, rfl⟩,
    nan_panic_behavior.2 [(zeroBox, Val.fin 1)] (by simp [Val.isNaN])⟩

end Onnx
